import Mathlib

/-!
# Verification of the Moodyssey persistence and auth core

Shallow embedding of the mood-journal application's core (`main.py`):
the `MoodEntry` record with its dict (de)serialization, the JSON-file
`DataManager` load/save layer, the `UserDataManager` registration and
authentication operations over bcrypt password hashes, the
`MoodEntriesDataManager` per-user record store, the mood→category
mapping, and the mood-submission action of the UI layer.

External collaborators are modelled at their interface contracts:
* JSON values are an inductive `Json`; `json.load` outcomes (valid value,
  syntax error, OS error) are captured by the `RawFile` state of the
  backing file, and `json.dump` by serializing a `Json` value.
* Python exceptions are explicit: operations that can raise return
  `Except PyError _`; a `try/except` in the source becomes a total
  function on the caught constructors.
* `datetime` is a structure of calendar fields; `isoformat` /
  `fromisoformat` are implemented concretely for the naive-datetime
  format the source produces.
* `bcrypt` is modelled as an ideal injective salted hash: `hashpw` is
  deterministic given the salt drawn by `gensalt` (passed explicitly),
  `checkpw` recovers the salt from the stored hash, recomputes and
  compares, and raises `ValueError` on a hash not in valid format.
-/

/-- Python exceptions that the embedded code can raise or catch. -/
inductive PyError where
  | keyError (key : String)
  | typeError
  | valueError
  | attributeError
  | osError
deriving DecidableEq, Repr

/-- A user-visible report emitted through `st.warning` / `st.error`. -/
inductive Signal where
  | warning
  | error
deriving DecidableEq, Repr

/-- JSON values, as produced by `json.load`.  Objects keep field order
(Python dicts preserve insertion order); `json.load` never yields
duplicate keys, but the type does not forbid them. -/
inductive Json where
  | null
  | bool (b : Bool)
  | num (n : Int)
  | str (s : String)
  | arr (elems : List Json)
  | obj (fields : List (String × Json))

/-- Python dict key lookup.  When duplicate keys occur the later entry
wins, matching dict construction. -/
def lookupKey : List (String × Json) → String → Option Json
  | [], _ => none
  | (k, v) :: rest, key =>
    match lookupKey rest key with
    | some r => some r
    | none => if k == key then some v else none

/-- Python truthiness of a `json.load` result. -/
def Json.truthy : Json → Bool
  | .null => false
  | .bool b => b
  | .num n => n != 0
  | .str s => !s.isEmpty
  | .arr elems => !elems.isEmpty
  | .obj fields => !fields.isEmpty

/-- Python `dict.get(key)`: the value when present, `None` otherwise. -/
def pyGet (fields : List (String × Json)) (key : String) : Json :=
  match lookupKey fields key with
  | some v => v
  | none => .null

/-- Python iteration (`for x in obj`): lists yield elements, dicts yield
keys, strings yield one-character strings; other values raise
`TypeError`. -/
def pyIter : Json → Except PyError (List Json)
  | .arr elems => .ok elems
  | .obj fields => .ok (fields.map (fun p => Json.str p.1))
  | .str s => .ok (s.data.map (fun c => Json.str (String.mk [c])))
  | _ => .error .typeError

/-- Substring test, modelling Python `needle in haystack` on strings. -/
def strInStr (needle hay : String) : Bool :=
  hay.data.tails.any (fun t => needle.data.isPrefixOf t)

/-- Python `key in container`: key membership for dicts, element
equality for lists, substring for strings; `TypeError` otherwise. -/
def pyContains (container : Json) (key : String) : Except PyError Bool :=
  match container with
  | .obj fields => .ok (fields.any (fun p => p.1 == key))
  | .arr elems => .ok (elems.any (fun j =>
      match j with
      | .str s => s == key
      | _ => false))
  | .str s => .ok (strInStr key s)
  | _ => .error .typeError

/-- Python `container[key]` for a string key: dict lookup (raising
`KeyError` when absent); indexing a list or string by a string, or any
non-container, raises `TypeError`. -/
def pyIndex (container : Json) (key : String) : Except PyError Json :=
  match container with
  | .obj fields =>
    match lookupKey fields key with
    | some v => .ok v
    | none => .error (.keyError key)
  | _ => .error .typeError

/-- Python `value.encode("utf-8")`: defined on strings, anything else
raises `AttributeError`. -/
def pyStrEncode : Json → Except PyError String
  | .str s => .ok s
  | _ => .error .attributeError

/-! ## Naive datetimes and their ISO-8601 serialization -/

/-- A timezone-naive Python `datetime`. -/
structure PyDateTime where
  year : Nat
  month : Nat
  day : Nat
  hour : Nat
  minute : Nat
  second : Nat
  microsecond : Nat
deriving DecidableEq, Repr

/-- Gregorian leap-year rule, as in `datetime`. -/
def isLeapYear (y : Nat) : Bool :=
  y % 4 == 0 && (y % 100 != 0 || y % 400 == 0)

/-- Days in a month, as validated by the `datetime` constructor. -/
def daysInMonth (y m : Nat) : Nat :=
  if m == 2 then (if isLeapYear y then 29 else 28)
  else if m == 4 || m == 6 || m == 9 || m == 11 then 30
  else 31

/-- The field ranges the `datetime` constructor accepts. -/
def PyDateTime.valid (t : PyDateTime) : Bool :=
  decide (1 ≤ t.year) && decide (t.year ≤ 9999) &&
  decide (1 ≤ t.month) && decide (t.month ≤ 12) &&
  decide (1 ≤ t.day) && decide (t.day ≤ daysInMonth t.year t.month) &&
  decide (t.hour ≤ 23) && decide (t.minute ≤ 59) &&
  decide (t.second ≤ 59) && decide (t.microsecond ≤ 999999)

/-- Zero-padded base-10 rendering of `n` to exactly `w` digits
(most significant first). -/
def padDigits : Nat → Nat → List Char
  | 0, _ => []
  | w + 1, n => padDigits w (n / 10) ++ [Nat.digitChar (n % 10)]

/-- Numeric value of a digit string. -/
def digitsVal (cs : List Char) : Nat :=
  cs.foldl (fun a c => a * 10 + (c.toNat - '0'.toNat)) 0

/-- Read exactly `w` decimal digits from the front of `cs`. -/
def readNat (w : Nat) (cs : List Char) : Option (Nat × List Char) :=
  if (cs.take w).length == w && (cs.take w).all Char.isDigit then
    some (digitsVal (cs.take w), cs.drop w)
  else none

/-- Consume one expected character. -/
def expectChar (c : Char) : List Char → Option (List Char)
  | c2 :: rest => if c2 == c then some rest else none
  | [] => none

/-- `datetime.isoformat()` for a naive datetime: `YYYY-MM-DDTHH:MM:SS`,
with `.ffffff` appended exactly when the microsecond field is nonzero. -/
def isoChars (t : PyDateTime) : List Char :=
  padDigits 4 t.year ++ '-' ::
    (padDigits 2 t.month ++ '-' ::
      (padDigits 2 t.day ++ 'T' ::
        (padDigits 2 t.hour ++ ':' ::
          (padDigits 2 t.minute ++ ':' ::
            (padDigits 2 t.second ++
              (if t.microsecond == 0 then []
               else '.' :: padDigits 6 t.microsecond))))))

/-- String form of `isoChars`. -/
def isoformat (t : PyDateTime) : String := String.mk (isoChars t)

/-- `datetime.fromisoformat` on the formats `isoformat` emits; any other
input fails (the real parser accepts more formats, all irrelevant to
the strings this program writes and reads back). -/
def fromisoChars (cs : List Char) : Option PyDateTime := do
  let (y, cs1) ← readNat 4 cs
  let cs2 ← expectChar '-' cs1
  let (mo, cs3) ← readNat 2 cs2
  let cs4 ← expectChar '-' cs3
  let (d, cs5) ← readNat 2 cs4
  let cs6 ← expectChar 'T' cs5
  let (h, cs7) ← readNat 2 cs6
  let cs8 ← expectChar ':' cs7
  let (mi, cs9) ← readNat 2 cs8
  let cs10 ← expectChar ':' cs9
  let (s, cs11) ← readNat 2 cs10
  let u ← (match cs11 with
    | [] => some 0
    | '.' :: rest =>
      (readNat 6 rest).bind (fun pr => if pr.2.isEmpty then some pr.1 else none)
    | _ => none)
  let t : PyDateTime := ⟨y, mo, d, h, mi, s, u⟩
  if t.valid then some t else none

/-- `datetime.fromisoformat` on strings. -/
def fromisoformat (s : String) : Option PyDateTime := fromisoChars s.data

/-! ## The `bcrypt` model -/

namespace bcrypt

/-- `bcrypt.hashpw(password, gensalt())`: an ideal injective salted hash.
The salt drawn by `gensalt` is passed explicitly; the modelled digest
records the salt (in unary, so that no digit-parsing is needed to
recover it) and the hashed password. -/
def hashpw (password : String) (salt : Nat) : String :=
  String.mk (List.replicate salt 's') ++ "$" ++ password

/-- Salt recovered from a stored hash, as `checkpw` does. -/
def extractSalt (h : String) : Nat :=
  (h.data.takeWhile (fun c => c != '$')).length

/-- Whether a string is a well-formed hash (real `bcrypt.checkpw` raises
`ValueError: Invalid salt` on anything else). -/
def validHashFormat (h : String) : Bool :=
  (h.data.takeWhile (fun c => c != '$')).all (fun c => c == 's') &&
    !(h.data.dropWhile (fun c => c != '$')).isEmpty

/-- `bcrypt.checkpw`: recompute the hash of the candidate password with
the stored salt and compare. -/
def checkpw (password hashed : String) : Except PyError Bool :=
  if validHashFormat hashed then
    .ok (hashed == hashpw password (extractSalt hashed))
  else .error .valueError

end bcrypt

/-! ## `MoodEntry` -/

/-- The mood record: `MoodEntry` in the source.  The `note` field holds
any Python value (`None` is `Json.null`); the constructor validates only
the mood. -/
structure MoodEntry where
  mood : String
  note : Json
  timestamp : PyDateTime

/-- The `MoodEntry.__init__` constructor: raises `ValueError` unless the
mood is a non-empty string.  The timestamp argument stands for either
the explicit argument or the `datetime.utcnow()` default. -/
def MoodEntry.mk? (mood note : Json) (timestamp : PyDateTime) :
    Except PyError MoodEntry :=
  match mood with
  | .str m => if m.isEmpty then .error .valueError else .ok ⟨m, note, timestamp⟩
  | _ => .error .valueError

/-- `MoodEntry.to_dict`. -/
def MoodEntry.to_dict (e : MoodEntry) : Json :=
  .obj [("mood", .str e.mood), ("note", e.note),
        ("timestamp", .str (isoformat e.timestamp))]

/-- `MoodEntry.from_dict`: reads `data["timestamp"]` through
`fromisoformat` first, then calls the constructor with `data["mood"]`
and `data.get("note")`.  Each failing step raises. -/
def MoodEntry.from_dict (data : Json) : Except PyError MoodEntry :=
  match data with
  | .obj fields =>
    match lookupKey fields "timestamp" with
    | none => .error (.keyError "timestamp")
    | some tv =>
      match tv with
      | .str tstr =>
        match fromisoformat tstr with
        | none => .error .valueError
        | some ts =>
          match lookupKey fields "mood" with
          | none => .error (.keyError "mood")
          | some mv => MoodEntry.mk? mv (pyGet fields "note") ts
      | _ => .error .typeError
  | _ => .error .typeError

/-! ## The `DataManager` file layer -/

/-- State of a backing JSON file as observed by `_load_raw_data`:
absent, present but zero-length, present with syntactically invalid
JSON, unreadable (an `OSError`-like fault on open/read), or holding a
parsed JSON value. -/
inductive RawFile where
  | absent
  | emptyFile
  | malformed
  | readFault
  | parsed (j : Json)

/-- Outcome of the file write performed by `_save_raw_data`: success, a
failure at `open` (file untouched), or a failure after `open` truncated
and `json.dump` wrote a strict prefix (leaving the file empty or with
invalid JSON syntax). -/
inductive WriteOutcome where
  | success
  | failAtOpen
  | failMidWrite (leftEmpty : Bool)
deriving DecidableEq, Repr

namespace DataManager

/-- `DataManager._load_raw_data`: absent or zero-length files yield `{}`;
a JSON syntax error is caught, reported as a warning, and yields `{}`;
any other exception is caught, reported as an error, and yields `{}`. -/
def load_raw_data : RawFile → Json × List Signal
  | .absent => (.obj [], [])
  | .emptyFile => (.obj [], [])
  | .malformed => (.obj [], [.warning])
  | .readFault => (.obj [], [.error])
  | .parsed j => (j, [])

/-- `DataManager._save_raw_data`: returns whether the write succeeded,
the signals reported, and the resulting file state. -/
def save_raw_data (file : RawFile) (data : Json) (w : WriteOutcome) :
    Bool × List Signal × RawFile :=
  match w with
  | .success => (true, [], .parsed data)
  | .failAtOpen => (false, [.error], file)
  | .failMidWrite leftEmpty =>
    (false, [.error], if leftEmpty then .emptyFile else .malformed)

end DataManager

/-! ## `UserDataManager` -/

namespace UserDataManager

/-- Python dict assignment `users[username] = v`: replace the entry when
the key is present, append otherwise. -/
def dictInsert : List (String × Json) → String → Json → List (String × Json)
  | [], k, v => [(k, v)]
  | (k2, v2) :: rest, k, v =>
    if k2 == k then (k2, v) :: rest else (k2, v2) :: dictInsert rest k v

/-- `UserDataManager.register_user`.  The salt stands for the value
drawn by `bcrypt.gensalt()`; `w` for the behaviour of the file write. -/
def register_user (file : RawFile) (username password : String)
    (salt : Nat) (w : WriteOutcome) :
    Except PyError ((Bool × String) × RawFile × List Signal) :=
  let (users, sigs) := DataManager.load_raw_data file
  match pyContains users username with
  | .error e => .error e
  | .ok true => .ok ((false, "Username already exists."), file, sigs)
  | .ok false =>
    let hashed_pass := bcrypt.hashpw password salt
    match users with
    | .obj fields =>
      match DataManager.save_raw_data file
          (.obj (dictInsert fields username
            (.obj [("hashed_password", .str hashed_pass)]))) w with
      | (true, sigs2, file2) =>
        .ok ((true, "Account created successfully! You can now log in."),
             file2, sigs ++ sigs2)
      | (false, sigs2, file2) =>
        .ok ((false, "Failed to create account due to a saving error."),
             file2, sigs ++ sigs2)
    | _ => .error .typeError

/-- `UserDataManager.authenticate_user`. -/
def authenticate_user (file : RawFile) (username password : String) :
    Except PyError ((Bool × String) × List Signal) :=
  let (users, sigs) := DataManager.load_raw_data file
  match pyContains users username with
  | .error e => .error e
  | .ok false => .ok ((false, "Username not found."), sigs)
  | .ok true =>
    match pyIndex users username with
    | .error e => .error e
    | .ok v =>
      match pyIndex v "hashed_password" with
      | .error e => .error e
      | .ok hp =>
        match pyStrEncode hp with
        | .error e => .error e
        | .ok hs =>
          match bcrypt.checkpw password hs with
          | .error e => .error e
          | .ok true => .ok ((true, "Logged in successfully!"), sigs)
          | .ok false => .ok ((false, "Incorrect password."), sigs)

/-- Whether a username is present in the persisted account store. -/
def storeContains (file : RawFile) (username : String) : Bool :=
  match (DataManager.load_raw_data file).1 with
  | .obj fields => fields.any (fun p => p.1 == username)
  | _ => false

/-- The hash stored for a username, when the store has the expected
shape at that key. -/
def storedHash (file : RawFile) (username : String) : Option String :=
  match (DataManager.load_raw_data file).1 with
  | .obj fields =>
    match lookupKey fields username with
    | some (.obj gs) =>
      match lookupKey gs "hashed_password" with
      | some (.str h) => some h
      | _ => none
    | _ => none
  | _ => none

/-- Whether a stored account value has the shape `register_user` writes:
an object carrying a well-formed string hash under `hashed_password`. -/
def accountValueOk : Json → Bool
  | .obj gs =>
    match lookupKey gs "hashed_password" with
    | some (.str h) => bcrypt.validHashFormat h
    | _ => false
  | _ => false

/-- Well-formedness of the account file: either no parsed content (the
load layer recovers those to `{}`) or a JSON object all of whose values
are well-shaped account records. -/
def wellFormedUsersFile : RawFile → Bool
  | .parsed (.obj fields) => fields.all (fun p => accountValueOk p.2)
  | .parsed _ => false
  | _ => true

end UserDataManager

/-! ## `MoodEntriesDataManager` -/

namespace MoodEntriesDataManager

/-- The per-dict entry conversion loop
`[MoodEntry.from_dict(entry) for entry in raw_entries]`: the first
raising conversion propagates. -/
def fromDictList : List Json → Except PyError (List MoodEntry)
  | [] => .ok []
  | d :: rest =>
    match MoodEntry.from_dict d with
    | .error e => .error e
    | .ok e =>
      match fromDictList rest with
      | .error e2 => .error e2
      | .ok es => .ok (e :: es)

/-- `MoodEntriesDataManager.load` for one user's file: raw load, then
entry conversion when the raw value is truthy. -/
def load (file : RawFile) : Except PyError (List MoodEntry × List Signal) :=
  let (raw_entries, sigs) := DataManager.load_raw_data file
  if raw_entries.truthy then
    match pyIter raw_entries with
    | .error e => .error e
    | .ok items =>
      match fromDictList items with
      | .error e => .error e
      | .ok entries => .ok (entries, sigs)
  else .ok ([], sigs)

/-- `MoodEntriesDataManager.save` for one user's file. -/
def save (file : RawFile) (entries : List MoodEntry) (w : WriteOutcome) :
    Bool × List Signal × RawFile :=
  DataManager.save_raw_data file (.arr (entries.map MoodEntry.to_dict)) w

end MoodEntriesDataManager

/-! ## Mood categories -/

/-- The `MOOD_CATEGORIES` table. -/
def MOOD_CATEGORIES : List (String × List String) :=
  [("Positive", ["Happy", "Excited"]),
   ("Neutral", ["Neutral"]),
   ("Negative", ["Sad", "Angry", "Anxious", "Tired"])]

/-- `get_mood_category`: first category whose mood list contains the
mood, else `"Unknown"`. -/
def get_mood_category (mood : String) : String :=
  match MOOD_CATEGORIES.find? (fun p => p.2.contains mood) with
  | some p => p.1
  | none => "Unknown"

/-! ## The mood-submission action -/

/-- The note value `mood_input_page` passes to the constructor:
`note if note.strip() else None`. -/
def noteOf (note : String) : Json :=
  if note.trim == "" then Json.null else Json.str note

/-- The `Submit Mood` action of `mood_input_page`: construct the entry,
load the user's existing sequence, append, save; report success. -/
def mood_input_submit (file : RawFile) (mood note : String)
    (now : PyDateTime) (w : WriteOutcome) :
    Except PyError (Bool × RawFile × List Signal) :=
  match MoodEntry.mk? (.str mood) (noteOf note) now with
  | .error e => .error e
  | .ok new_entry =>
    match MoodEntriesDataManager.load file with
    | .error e => .error e
    | .ok (all_entries, sigs) =>
      match MoodEntriesDataManager.save file (all_entries ++ [new_entry]) w with
      | (true, sigs2, file2) => .ok (true, file2, sigs ++ sigs2)
      | (false, sigs2, file2) => .ok (false, file2, sigs ++ sigs2)

/-! ## Concrete sample values -/

/-- A concrete valid timestamp. -/
def sampleTime : PyDateTime := ⟨2024, 1, 2, 3, 4, 5, 0⟩

/-- A second concrete valid timestamp, with microseconds. -/
def sampleTime2 : PyDateTime := ⟨2024, 1, 2, 3, 4, 6, 123456⟩

/-- A third concrete valid timestamp. -/
def sampleTime3 : PyDateTime := ⟨2024, 3, 1, 23, 59, 59, 999999⟩

/-- A concrete mood entry without a note. -/
def sampleEntryA : MoodEntry := ⟨"Happy", .null, sampleTime⟩

/-- A concrete mood entry with a note. -/
def sampleEntryB : MoodEntry := ⟨"Sad", .str "rough day", sampleTime2⟩

/-- A record file already holding one serialized entry. -/
def sampleMoodFile : RawFile := .parsed (.arr [MoodEntry.to_dict sampleEntryA])
/-- A concrete account store as produced by a successful registration. -/
def sampleAliceFile : RawFile :=
  .parsed (.obj [("alice", .obj [("hashed_password", .str (bcrypt.hashpw "x" 1))])])

/-- A second concrete account store, for the auth-correctness witness. -/
def sampleBobFile : RawFile :=
  .parsed (.obj [("bob", .obj [("hashed_password", .str (bcrypt.hashpw "secret123" 1))])])

/-! ## Digit-string lemmas -/

theorem charVal_digitChar (d : Nat) (h : d < 10) :
    (Nat.digitChar d).toNat - '0'.toNat = d := by
  interval_cases d <;> rfl

theorem isDigit_digitChar (d : Nat) (h : d < 10) :
    (Nat.digitChar d).isDigit = true := by
  interval_cases d <;> rfl

theorem padDigits_length (w n : Nat) : (padDigits w n).length = w := by
  induction w generalizing n with
  | zero => rfl
  | succ w ih => simp [padDigits, ih]

theorem padDigits_all_digit (w n : Nat) :
    (padDigits w n).all Char.isDigit = true := by
  induction w generalizing n with
  | zero => rfl
  | succ w ih =>
    simp [padDigits, List.all_append, ih,
      isDigit_digitChar (n % 10) (Nat.mod_lt _ (by norm_num))]

theorem digitsVal_padDigits_aux (w n a : Nat) (h : n < 10 ^ w) :
    (padDigits w n).foldl (fun acc c => acc * 10 + (c.toNat - '0'.toNat)) a =
      a * 10 ^ w + n := by
  induction w generalizing n a with
  | zero =>
    simp [padDigits]
    omega
  | succ w ih =>
    have hlt : n / 10 < 10 ^ w := by
      rw [Nat.div_lt_iff_lt_mul (by norm_num)]
      calc n < 10 ^ (w + 1) := h
        _ = 10 ^ w * 10 := by ring
    simp only [padDigits, List.foldl_append, List.foldl_cons, List.foldl_nil]
    rw [ih (n / 10) a hlt, charVal_digitChar (n % 10) (Nat.mod_lt _ (by norm_num))]
    have hdm : 10 * (n / 10) + n % 10 = n := Nat.div_add_mod n 10
    have hp : (10 : Nat) ^ (w + 1) = 10 ^ w * 10 := by ring
    calc (a * 10 ^ w + n / 10) * 10 + n % 10
        = a * (10 ^ w * 10) + (10 * (n / 10) + n % 10) := by ring
      _ = a * 10 ^ (w + 1) + n := by rw [hdm, hp]

theorem digitsVal_padDigits (w n : Nat) (h : n < 10 ^ w) :
    digitsVal (padDigits w n) = n := by
  have := digitsVal_padDigits_aux w n 0 h
  simpa [digitsVal] using this

theorem readNat_padDigits (w n : Nat) (rest : List Char) (h : n < 10 ^ w) :
    readNat w (padDigits w n ++ rest) = some (n, rest) := by
  have htake : (padDigits w n ++ rest).take w = padDigits w n := by
    have h2 := List.take_left (padDigits w n) rest
    rwa [padDigits_length] at h2
  have hdrop : (padDigits w n ++ rest).drop w = rest := by
    have h2 := List.drop_left (padDigits w n) rest
    rwa [padDigits_length] at h2
  simp [readNat, htake, hdrop, padDigits_length, padDigits_all_digit,
    digitsVal_padDigits w n h]

theorem expectChar_cons (c : Char) (rest : List Char) :
    expectChar c (c :: rest) = some rest := by
  simp [expectChar]

/-! ## ISO-8601 round trip -/

theorem fromiso_iso (t : PyDateTime) (h : t.valid = true) :
    fromisoformat (isoformat t) = some t := by
  obtain ⟨y, mo, d, hh, mi, s, u⟩ := t
  simp only [PyDateTime.valid, Bool.and_eq_true, decide_eq_true_eq] at h
  obtain ⟨⟨⟨⟨⟨⟨⟨⟨⟨hy1, hy2⟩, hm1⟩, hm2⟩, hd1⟩, hd2⟩, hh2⟩, hmi2⟩, hs2⟩, hu2⟩ := h
  have hy : y < 10 ^ 4 := by norm_num; omega
  have hmo : mo < 10 ^ 2 := by norm_num; omega
  have hd : d < 10 ^ 2 := by
    have : daysInMonth y mo ≤ 31 := by
      unfold daysInMonth
      split <;> [split <;> norm_num; split <;> norm_num]
    norm_num; omega
  have hhh : hh < 10 ^ 2 := by norm_num; omega
  have hmi : mi < 10 ^ 2 := by norm_num; omega
  have hs : s < 10 ^ 2 := by norm_num; omega
  have hu : u < 10 ^ 6 := by norm_num; omega
  have hvalid : PyDateTime.valid ⟨y, mo, d, hh, mi, s, u⟩ = true := by
    simp only [PyDateTime.valid, Bool.and_eq_true, decide_eq_true_eq]
    refine ⟨⟨⟨⟨⟨⟨⟨⟨⟨hy1, hy2⟩, hm1⟩, hm2⟩, hd1⟩, hd2⟩, hh2⟩, hmi2⟩, hs2⟩, hu2⟩
  have hnil : ∀ (w n : Nat), n < 10 ^ w → readNat w (padDigits w n) = some (n, []) := by
    intro w n hn
    have h2 := readNat_padDigits w n [] hn
    rwa [List.append_nil] at h2
  show fromisoChars (isoChars ⟨y, mo, d, hh, mi, s, u⟩) = some ⟨y, mo, d, hh, mi, s, u⟩
  by_cases hu0 : u = 0
  · subst hu0
    simp only [isoChars, beq_self_eq_true, if_true, List.append_nil]
    simp only [fromisoChars, bind, Option.bind]
    simp only [readNat_padDigits _ _ _ hy, expectChar_cons,
      readNat_padDigits _ _ _ hmo, readNat_padDigits _ _ _ hd,
      readNat_padDigits _ _ _ hhh, readNat_padDigits _ _ _ hmi,
      hnil _ _ hs]
    simp [hvalid]
  · have hu0b : (u == 0) = false := by simpa using hu0
    simp only [isoChars, hu0b, Bool.false_eq_true, if_false]
    simp only [fromisoChars, bind, Option.bind]
    simp only [readNat_padDigits _ _ _ hy, expectChar_cons,
      readNat_padDigits _ _ _ hmo, readNat_padDigits _ _ _ hd,
      readNat_padDigits _ _ _ hhh, readNat_padDigits _ _ _ hmi,
      readNat_padDigits _ _ _ hs, hnil _ _ hu]
    simp [hvalid]

/-! ## Entry serialization round trip -/

theorem from_dict_to_dict (e : MoodEntry) (hm : e.mood ≠ "")
    (hv : e.timestamp.valid = true) :
    MoodEntry.from_dict (MoodEntry.to_dict e) = .ok e := by
  have hiso := fromiso_iso e.timestamp hv
  have hne : e.mood.isEmpty = false := by
    rw [Bool.eq_false_iff]
    intro hcontra
    exact hm ((String.isEmpty_iff e.mood).mp hcontra)
  simp only [MoodEntry.to_dict, MoodEntry.from_dict, lookupKey, pyGet, MoodEntry.mk?]
  simp [hiso, hne]

/-! ## bcrypt model lemmas -/

theorem bcrypt_hashpw_data (password : String) (salt : Nat) :
    (bcrypt.hashpw password salt).data =
      List.replicate salt 's' ++ '$' :: password.data := by
  simp [bcrypt.hashpw, String.data_append]

theorem takeWhile_replicate_dollar (salt : Nat) (rest : List Char) :
    (List.replicate salt 's' ++ '$' :: rest).takeWhile (fun c => c != '$') =
      List.replicate salt 's' := by
  induction salt with
  | zero => simp [List.takeWhile]
  | succ n ih => simp [List.replicate, List.takeWhile, ih]

theorem dropWhile_replicate_dollar (salt : Nat) (rest : List Char) :
    (List.replicate salt 's' ++ '$' :: rest).dropWhile (fun c => c != '$') =
      '$' :: rest := by
  induction salt with
  | zero => simp [List.dropWhile]
  | succ n ih => simp [List.replicate, List.dropWhile, ih]

theorem bcrypt_validHashFormat_hashpw (password : String) (salt : Nat) :
    bcrypt.validHashFormat (bcrypt.hashpw password salt) = true := by
  simp [bcrypt.validHashFormat, bcrypt_hashpw_data,
    takeWhile_replicate_dollar, dropWhile_replicate_dollar]

theorem bcrypt_extractSalt_hashpw (password : String) (salt : Nat) :
    bcrypt.extractSalt (bcrypt.hashpw password salt) = salt := by
  simp [bcrypt.extractSalt, bcrypt_hashpw_data, takeWhile_replicate_dollar]

theorem bcrypt_hashpw_inj (p q : String) (salt : Nat) :
    (bcrypt.hashpw p salt = bcrypt.hashpw q salt) ↔ p = q := by
  constructor
  · intro h
    have hd : (bcrypt.hashpw p salt).data = (bcrypt.hashpw q salt).data := by rw [h]
    rw [bcrypt_hashpw_data, bcrypt_hashpw_data] at hd
    have := List.append_cancel_left hd
    cases p; cases q
    exact congrArg String.mk (by simpa using this)
  · intro h; rw [h]

theorem bcrypt_checkpw_hashpw (candidate password : String) (salt : Nat) :
    bcrypt.checkpw candidate (bcrypt.hashpw password salt) =
      .ok (decide (password = candidate)) := by
  simp only [bcrypt.checkpw, bcrypt_validHashFormat_hashpw, if_true,
    bcrypt_extractSalt_hashpw]
  congr 1
  by_cases h : password = candidate
  · subst h; simp
  · have hb : (bcrypt.hashpw password salt == bcrypt.hashpw candidate salt) = false := by
      rw [beq_eq_false_iff_ne]
      intro hcontra
      exact h ((bcrypt_hashpw_inj password candidate salt).mp hcontra)
    simp [hb, h]

/-! ## Dict lemmas -/

theorem lookupKey_isSome_eq_any (fs : List (String × Json)) (k : String) :
    (lookupKey fs k).isSome = fs.any (fun p => p.1 == k) := by
  induction fs with
  | nil => rfl
  | cons hd rest ih =>
    obtain ⟨k2, v2⟩ := hd
    simp only [lookupKey, List.any_cons]
    cases hrest : lookupKey rest k with
    | some r =>
      rw [hrest] at ih
      simp [← ih]
    | none =>
      rw [hrest] at ih
      by_cases hk : k2 == k
      · simp [hk, ← ih]
      · simp only [Bool.not_eq_true] at hk
        simp [hk, ← ih]

theorem lookupKey_mem (fs : List (String × Json)) (k : String) (v : Json)
    (h : lookupKey fs k = some v) : (k, v) ∈ fs := by
  induction fs with
  | nil => simp [lookupKey] at h
  | cons hd rest ih =>
    obtain ⟨k2, v2⟩ := hd
    simp only [lookupKey] at h
    cases hrest : lookupKey rest k with
    | some r =>
      rw [hrest] at h
      cases h
      exact List.mem_cons_of_mem _ (ih hrest)
    | none =>
      rw [hrest] at h
      by_cases hk : k2 == k
      · rw [if_pos hk] at h
        cases h
        have : k2 = k := by simpa using hk
        subst this
        exact List.mem_cons_self _ _
      · rw [if_neg hk] at h
        cases h

theorem dictInsert_fresh (fs : List (String × Json)) (k : String) (v : Json)
    (h : fs.any (fun p => p.1 == k) = false) :
    UserDataManager.dictInsert fs k v = fs ++ [(k, v)] := by
  induction fs with
  | nil => rfl
  | cons hd rest ih =>
    obtain ⟨k2, v2⟩ := hd
    simp only [List.any_cons, Bool.or_eq_false_iff] at h
    simp [UserDataManager.dictInsert, h.1, ih h.2]

theorem lookupKey_append_self (fs : List (String × Json)) (k : String) (v : Json) :
    lookupKey (fs ++ [(k, v)]) k = some v := by
  induction fs with
  | nil => simp [lookupKey]
  | cons hd rest ih =>
    obtain ⟨k2, v2⟩ := hd
    simp [lookupKey, ih]

/-! ## Characterizing a successful registration -/

theorem register_success_shape (f : RawFile) (u p : String) (s : Nat)
    (w : WriteOutcome) (m : String) (f2 : RawFile) (sg : List Signal)
    (h : UserDataManager.register_user f u p s w = .ok ((true, m), f2, sg)) :
    ∃ fields2, f2 = .parsed (.obj fields2) ∧
      lookupKey fields2 u =
        some (.obj [("hashed_password", .str (bcrypt.hashpw p s))]) := by
  rcases hL : DataManager.load_raw_data f with ⟨users, sigs⟩
  unfold UserDataManager.register_user at h
  rw [hL] at h
  simp only at h
  split at h
  · exact absurd h (by simp)
  · exact absurd h (by simp)
  · rename_i hc
    split at h
    · rename_i fields heq
      split at h
      · rename_i hsucc sigs2 file2 hsave
        injection h with h2
        injection h2 with hres hrest
        injection hrest with hf hsg
        have hcb : heq.any (fun q => q.1 == u) = false := by
          simp only [pyContains, Except.ok.injEq] at hc
          exact hc
        cases w with
        | success =>
          simp only [DataManager.save_raw_data, Prod.mk.injEq, true_and] at hsave
          refine ⟨UserDataManager.dictInsert heq u
            (.obj [("hashed_password", .str (bcrypt.hashpw p s))]), ?_, ?_⟩
          · rw [← hf, ← hsave.2]
          · rw [dictInsert_fresh heq u _ hcb]
            exact lookupKey_append_self heq u _
        | failAtOpen =>
          simp [DataManager.save_raw_data] at hsave
        | failMidWrite b =>
          simp [DataManager.save_raw_data] at hsave
      · exact absurd h (by simp)
    · exact absurd h (by simp)

/-! ## Load/save round trip for the record store -/

theorem fromDictList_map (es : List MoodEntry)
    (h : ∀ e ∈ es, MoodEntry.from_dict (MoodEntry.to_dict e) = .ok e) :
    MoodEntriesDataManager.fromDictList (es.map MoodEntry.to_dict) = .ok es := by
  induction es with
  | nil => rfl
  | cons e rest ih =>
    have he := h e (List.mem_cons_self _ _)
    have hrest := ih (fun e2 he2 => h e2 (List.mem_cons_of_mem _ he2))
    simp [MoodEntriesDataManager.fromDictList, he, hrest]

theorem load_parsed_entries (es : List MoodEntry)
    (h : ∀ e ∈ es, MoodEntry.from_dict (MoodEntry.to_dict e) = .ok e) :
    MoodEntriesDataManager.load (.parsed (.arr (es.map MoodEntry.to_dict))) =
      .ok (es, []) := by
  cases es with
  | nil => rfl
  | cons e rest =>
    unfold MoodEntriesDataManager.load
    simp only [DataManager.load_raw_data, Json.truthy, pyIter, List.map_cons,
      List.isEmpty_cons, Bool.not_false, if_true]
    rw [← List.map_cons]
    rw [fromDictList_map _ h]

/-! ## Claim theorems -/

/-- C6: for every mood record (non-empty mood and a real datetime, as the
constructor guarantees), deserializing its serialized dict form yields
the record back: mood, note, and timestamp are all preserved. -/
theorem mood_record_round_trip (e : MoodEntry) (hm : e.mood ≠ "")
    (hv : e.timestamp.valid = true) :
    MoodEntry.from_dict (MoodEntry.to_dict e) = .ok e :=
  from_dict_to_dict e hm hv

/-- Witness for C6 at a concrete record with a note and microseconds. -/
theorem mood_record_round_trip_witness :
    sampleEntryB.mood ≠ "" ∧ sampleEntryB.timestamp.valid = true ∧
    MoodEntry.from_dict (MoodEntry.to_dict sampleEntryB) = .ok sampleEntryB :=
  ⟨by decide, by decide, mood_record_round_trip sampleEntryB (by decide) (by decide)⟩

/-- C8: loading from an absent or zero-length backing file returns the
empty sequence with no warning or error signal, and does not raise. -/
theorem load_absent_or_empty :
    MoodEntriesDataManager.load .absent = .ok ([], []) ∧
    MoodEntriesDataManager.load .emptyFile = .ok ([], []) :=
  ⟨rfl, rfl⟩

/-- C1 counterexample: a record file whose content is valid JSON but not
a sequence of well-formed record dicts makes load raise (`KeyError`)
rather than warn and return an empty sequence. -/
theorem load_raises_on_nonrecord_json :
    MoodEntriesDataManager.load (.parsed (.arr [.obj []])) =
      .error (.keyError "timestamp") :=
  rfl

/-- C1 amended: when the file content is not syntactically valid JSON,
load reports a warning and returns the empty sequence without raising;
an unexpected read fault is likewise caught and reported as an error. -/
theorem load_malformed_warns :
    MoodEntriesDataManager.load .malformed = .ok ([], [.warning]) ∧
    MoodEntriesDataManager.load .readFault = .ok ([], [.error]) :=
  ⟨rfl, rfl⟩

/-- C5 counterexample: an account file holding valid JSON of the wrong
shape (a username mapped to a bare string) makes authenticate raise
`TypeError` across the module boundary instead of returning a result. -/
theorem authenticate_raises_on_malformed_table :
    UserDataManager.authenticate_user
      (.parsed (.obj [("bob", .str "h")])) "bob" "x" = .error .typeError :=
  rfl

/-- C2 counterexample: a failure in the middle of the truncate-then-dump
write leaves the backing file in a partial state that is neither the old
nor the new content — the overwrite is not atomic, and a subsequent load
sees the corruption (warns and loses the previously saved record). -/
theorem save_partial_write_visible :
    MoodEntriesDataManager.save sampleMoodFile [sampleEntryA, sampleEntryB]
      (.failMidWrite false) = (false, [.error], .malformed) ∧
    RawFile.malformed ≠ sampleMoodFile ∧
    RawFile.malformed ≠
      .parsed (.arr ([sampleEntryA, sampleEntryB].map MoodEntry.to_dict)) ∧
    MoodEntriesDataManager.load .malformed = .ok ([], [.warning]) := by
  refine ⟨rfl, ?_, ?_, rfl⟩
  · intro hcontra
    simp [sampleMoodFile] at hcontra
  · intro hcontra
    simp at hcontra

/-- C2 amended: save serializes the full sequence; on success the file
holds exactly that serialization, and on any I/O failure it returns
false and reports an error without raising — but a mid-write failure can
leave partial content, so the overwrite is not atomic. -/
theorem save_reports_failure (f : RawFile) (entries : List MoodEntry)
    (w : WriteOutcome) (hw : w ≠ .success) :
    MoodEntriesDataManager.save f entries .success =
      (true, [], .parsed (.arr (entries.map MoodEntry.to_dict))) ∧
    (MoodEntriesDataManager.save f entries w).1 = false ∧
    Signal.error ∈ (MoodEntriesDataManager.save f entries w).2.1 := by
  refine ⟨rfl, ?_, ?_⟩ <;>
    cases w with
    | success => exact absurd rfl hw
    | failAtOpen => simp [MoodEntriesDataManager.save, DataManager.save_raw_data]
    | failMidWrite b => simp [MoodEntriesDataManager.save, DataManager.save_raw_data]

/-- Witness for C2's amended claim at a concrete file and failure. -/
theorem save_reports_failure_witness :
    MoodEntriesDataManager.save sampleMoodFile [sampleEntryA] .success =
      (true, [], .parsed (.arr ([sampleEntryA].map MoodEntry.to_dict))) ∧
    (MoodEntriesDataManager.save sampleMoodFile [sampleEntryA] .failAtOpen).1 = false ∧
    Signal.error ∈ (MoodEntriesDataManager.save sampleMoodFile [sampleEntryA] .failAtOpen).2.1 :=
  save_reports_failure sampleMoodFile [sampleEntryA] .failAtOpen (by decide)

/-- C9: the spec's category test cases. -/
theorem mood_category_cases :
    get_mood_category "Happy" = "Positive" ∧
    get_mood_category "Sad" = "Negative" ∧
    get_mood_category "Neutral" = "Neutral" ∧
    get_mood_category "Martian" = "Unknown" :=
  ⟨rfl, rfl, rfl, rfl⟩

/-- C10: the category mapping is total (every mood string lands in one
of the four categories) and the remaining enumerated moods map as the
table states. -/
theorem mood_category_total :
    (∀ mood : String,
      get_mood_category mood = "Positive" ∨ get_mood_category mood = "Neutral" ∨
      get_mood_category mood = "Negative" ∨ get_mood_category mood = "Unknown") ∧
    get_mood_category "Excited" = "Positive" ∧
    get_mood_category "Angry" = "Negative" ∧
    get_mood_category "Anxious" = "Negative" ∧
    get_mood_category "Tired" = "Negative" := by
  refine ⟨?_, rfl, rfl, rfl, rfl⟩
  intro mood
  unfold get_mood_category
  cases hf : MOOD_CATEGORIES.find? (fun p => p.2.contains mood) with
  | none => simp
  | some q =>
    have hmem := List.mem_of_find?_eq_some hf
    simp only [MOOD_CATEGORIES, List.mem_cons, List.not_mem_nil, or_false] at hmem
    rcases hmem with rfl | rfl | rfl
    · left; rfl
    · right; left; rfl
    · right; right; left; rfl


/-- C3: once `register(u, p1)` has succeeded, a second
`register(u, p2)` fails with the duplicate-username outcome, leaves the
persisted store untouched, and the stored hash for `u` is still the one
computed from `p1`. -/
theorem register_duplicate_rejected (f : RawFile) (u p1 p2 : String)
    (s1 s2 : Nat) (w1 w2 : WriteOutcome) (m : String) (f1 : RawFile)
    (sg : List Signal)
    (h : UserDataManager.register_user f u p1 s1 w1 = .ok ((true, m), f1, sg)) :
    UserDataManager.register_user f1 u p2 s2 w2 =
      .ok ((false, "Username already exists."), f1, []) ∧
    UserDataManager.storedHash f1 u = some (bcrypt.hashpw p1 s1) := by
  obtain ⟨fields2, hf1, hlk⟩ := register_success_shape f u p1 s1 w1 m f1 sg h
  have hany : fields2.any (fun q => q.1 == u) = true := by
    rw [← lookupKey_isSome_eq_any, hlk]; rfl
  subst hf1
  constructor
  · unfold UserDataManager.register_user
    simp only [DataManager.load_raw_data, pyContains, hany]
  · unfold UserDataManager.storedHash
    simp only [DataManager.load_raw_data, hlk, lookupKey]
    rfl

/-- Witness for C3 after one concrete successful registration. -/
theorem register_duplicate_rejected_witness :
    UserDataManager.register_user sampleAliceFile "alice" "y" 2 .success =
      .ok ((false, "Username already exists."), sampleAliceFile, []) ∧
    UserDataManager.storedHash sampleAliceFile "alice" =
      some (bcrypt.hashpw "x" 1) :=
  register_duplicate_rejected .absent "alice" "x" "y" 1 2 .success .success
    "Account created successfully! You can now log in." sampleAliceFile [] rfl

/-- C4: after a successful `register(u, p)`: authenticating with the
right password succeeds; any other password fails with the
invalid-credential outcome; and any username absent from the store
fails with the unknown-username outcome.  Nothing raises. -/
theorem authenticate_after_register (f : RawFile) (u p : String) (s : Nat)
    (w : WriteOutcome) (m : String) (f1 : RawFile) (sg : List Signal)
    (h : UserDataManager.register_user f u p s w = .ok ((true, m), f1, sg)) :
    UserDataManager.authenticate_user f1 u p =
      .ok ((true, "Logged in successfully!"), []) ∧
    (∀ p2, p2 ≠ p → UserDataManager.authenticate_user f1 u p2 =
      .ok ((false, "Incorrect password."), [])) ∧
    (∀ v q, UserDataManager.storeContains f1 v = false →
      UserDataManager.authenticate_user f1 v q =
        .ok ((false, "Username not found."), [])) := by
  obtain ⟨fields2, hf1, hlk⟩ := register_success_shape f u p s w m f1 sg h
  have hany : fields2.any (fun q => q.1 == u) = true := by
    rw [← lookupKey_isSome_eq_any, hlk]; rfl
  subst hf1
  refine ⟨?_, ?_, ?_⟩
  · unfold UserDataManager.authenticate_user
    simp only [DataManager.load_raw_data, pyContains, hany, pyIndex, hlk,
      lookupKey, pyStrEncode, beq_self_eq_true, if_true]
    rw [bcrypt_checkpw_hashpw]
    simp
  · intro p2 hne
    unfold UserDataManager.authenticate_user
    simp only [DataManager.load_raw_data, pyContains, hany, pyIndex, hlk,
      lookupKey, pyStrEncode, beq_self_eq_true, if_true]
    rw [bcrypt_checkpw_hashpw]
    have hd : decide (p = p2) = false := by
      simp only [decide_eq_false_iff_not]
      exact fun hc => hne hc.symm
    simp [hd]
  · intro v q hnc
    have hvany : fields2.any (fun q2 => q2.1 == v) = false := by
      unfold UserDataManager.storeContains at hnc
      simpa [DataManager.load_raw_data] using hnc
    unfold UserDataManager.authenticate_user
    simp only [DataManager.load_raw_data, pyContains, hvany]

/-- Witness for C4 after one concrete successful registration. -/
theorem authenticate_after_register_witness :
    UserDataManager.authenticate_user sampleBobFile "bob" "secret123" =
      .ok ((true, "Logged in successfully!"), []) ∧
    (∀ p2, p2 ≠ "secret123" → UserDataManager.authenticate_user sampleBobFile "bob" p2 =
      .ok ((false, "Incorrect password."), [])) ∧
    (∀ v q, UserDataManager.storeContains sampleBobFile v = false →
      UserDataManager.authenticate_user sampleBobFile v q =
        .ok ((false, "Username not found."), [])) :=
  authenticate_after_register .absent "bob" "secret123" 1 .success
    "Account created successfully! You can now log in." sampleBobFile [] rfl

/-- C5 amended: register and authenticate resolve every outcome into an
explicit `(success, message)` result — they never raise — provided the
account file is absent, empty, unreadable, syntactically invalid, or a
JSON object whose entries have the shape the store itself writes;
account content of any other JSON shape makes them raise. -/
theorem auth_no_raise_on_wellformed (f : RawFile) (u p1 : String)
    (s : Nat) (w : WriteOutcome)
    (hwf : UserDataManager.wellFormedUsersFile f = true) :
    (UserDataManager.register_user f u p1 s w).isOk = true ∧
    (UserDataManager.authenticate_user f u p1).isOk = true := by
  cases f with
  | absent => exact ⟨by cases w <;> rfl, rfl⟩
  | emptyFile => exact ⟨by cases w <;> rfl, rfl⟩
  | malformed => exact ⟨by cases w <;> rfl, rfl⟩
  | readFault => exact ⟨by cases w <;> rfl, rfl⟩
  | parsed j =>
    cases j with
    | null => simp [UserDataManager.wellFormedUsersFile] at hwf
    | bool b => simp [UserDataManager.wellFormedUsersFile] at hwf
    | num n => simp [UserDataManager.wellFormedUsersFile] at hwf
    | str s2 => simp [UserDataManager.wellFormedUsersFile] at hwf
    | arr elems => simp [UserDataManager.wellFormedUsersFile] at hwf
    | obj fields =>
      simp only [UserDataManager.wellFormedUsersFile] at hwf
      constructor
      · unfold UserDataManager.register_user
        simp only [DataManager.load_raw_data, pyContains]
        cases hb : fields.any (fun q => q.1 == u) with
        | true => rfl
        | false => cases w <;> rfl
      · unfold UserDataManager.authenticate_user
        simp only [DataManager.load_raw_data, pyContains]
        cases hb : fields.any (fun q => q.1 == u) with
        | false => rfl
        | true =>
          have hsome : (lookupKey fields u).isSome = true := by
            rw [lookupKey_isSome_eq_any, hb]
          obtain ⟨v, hv⟩ := Option.isSome_iff_exists.mp hsome
          have hok : UserDataManager.accountValueOk v = true :=
            List.all_eq_true.mp hwf _ (lookupKey_mem fields u v hv)
          cases v with
          | obj gs =>
            simp only [UserDataManager.accountValueOk] at hok
            cases hg : lookupKey gs "hashed_password" with
            | none => rw [hg] at hok; simp at hok
            | some hpv =>
              rw [hg] at hok
              cases hpv with
              | str h2 =>
                have hok2 : bcrypt.validHashFormat h2 = true := hok
                simp only [pyIndex, hv, hg, pyStrEncode, bcrypt.checkpw, hok2,
                  if_true]
                cases h2 == bcrypt.hashpw p1 (bcrypt.extractSalt h2) <;> rfl
              | null => simp at hok
              | bool b => simp at hok
              | num n => simp at hok
              | arr elems => simp at hok
              | obj gs2 => simp at hok
          | null => simp [UserDataManager.accountValueOk] at hok
          | bool b => simp [UserDataManager.accountValueOk] at hok
          | num n => simp [UserDataManager.accountValueOk] at hok
          | str s3 => simp [UserDataManager.accountValueOk] at hok
          | arr elems => simp [UserDataManager.accountValueOk] at hok

/-- Witness for C5's amended claim on a concrete well-formed store. -/
theorem auth_no_raise_on_wellformed_witness :
    UserDataManager.wellFormedUsersFile sampleBobFile = true ∧
    (UserDataManager.register_user sampleBobFile "bob" "pw" 3 .success).isOk = true ∧
    (UserDataManager.authenticate_user sampleBobFile "bob" "pw").isOk = true :=
  ⟨by decide, auth_no_raise_on_wellformed sampleBobFile "bob" "pw" 3 .success (by decide)⟩

/-- C7: starting from a user with no backing file, three sequential
mood submissions (each one loading, appending one record, and saving
successfully) followed by a load return exactly the three records, in
insertion order. -/
theorem append_three_accumulates (m1 n1 m2 n2 m3 n3 : String)
    (t1 t2 t3 : PyDateTime)
    (hm1 : m1 ≠ "") (hm2 : m2 ≠ "") (hm3 : m3 ≠ "")
    (hv1 : t1.valid = true) (hv2 : t2.valid = true) (hv3 : t3.valid = true) :
    ∃ f1 f2 f3,
      mood_input_submit .absent m1 n1 t1 .success = .ok (true, f1, []) ∧
      mood_input_submit f1 m2 n2 t2 .success = .ok (true, f2, []) ∧
      mood_input_submit f2 m3 n3 t3 .success = .ok (true, f3, []) ∧
      MoodEntriesDataManager.load f3 =
        .ok ([⟨m1, noteOf n1, t1⟩, ⟨m2, noteOf n2, t2⟩, ⟨m3, noteOf n3, t3⟩],
             []) := by
  have hi1 : MoodEntry.mk? (.str m1) (noteOf n1) t1 =
      .ok ⟨m1, noteOf n1, t1⟩ := by
    simp [MoodEntry.mk?, String.isEmpty_iff, hm1]
  have hi2 : MoodEntry.mk? (.str m2) (noteOf n2) t2 =
      .ok ⟨m2, noteOf n2, t2⟩ := by
    simp [MoodEntry.mk?, String.isEmpty_iff, hm2]
  have hi3 : MoodEntry.mk? (.str m3) (noteOf n3) t3 =
      .ok ⟨m3, noteOf n3, t3⟩ := by
    simp [MoodEntry.mk?, String.isEmpty_iff, hm3]
  have hrt : ∀ e ∈ [(⟨m1, noteOf n1, t1⟩ : MoodEntry), ⟨m2, noteOf n2, t2⟩,
      ⟨m3, noteOf n3, t3⟩], MoodEntry.from_dict (MoodEntry.to_dict e) = .ok e := by
    intro e he
    simp only [List.mem_cons, List.not_mem_nil, or_false] at he
    rcases he with rfl | rfl | rfl
    · exact from_dict_to_dict _ hm1 hv1
    · exact from_dict_to_dict _ hm2 hv2
    · exact from_dict_to_dict _ hm3 hv3
  have hld1 : MoodEntriesDataManager.load
      (.parsed (.arr ([(⟨m1, noteOf n1, t1⟩ : MoodEntry)].map MoodEntry.to_dict))) =
      .ok ([⟨m1, noteOf n1, t1⟩], []) :=
    load_parsed_entries _ (fun e he => hrt e (by
      simp only [List.mem_singleton] at he
      simp [he]))
  have hld2 : MoodEntriesDataManager.load
      (.parsed (.arr ([(⟨m1, noteOf n1, t1⟩ : MoodEntry),
        ⟨m2, noteOf n2, t2⟩].map MoodEntry.to_dict))) =
      .ok ([⟨m1, noteOf n1, t1⟩, ⟨m2, noteOf n2, t2⟩], []) :=
    load_parsed_entries _ (fun e he => hrt e (by
      simp only [List.mem_cons, List.not_mem_nil, or_false] at he
      rcases he with rfl | rfl
      · simp
      · simp))
  have hld3 : MoodEntriesDataManager.load
      (.parsed (.arr ([(⟨m1, noteOf n1, t1⟩ : MoodEntry), ⟨m2, noteOf n2, t2⟩,
        ⟨m3, noteOf n3, t3⟩].map MoodEntry.to_dict))) =
      .ok ([⟨m1, noteOf n1, t1⟩, ⟨m2, noteOf n2, t2⟩, ⟨m3, noteOf n3, t3⟩], []) :=
    load_parsed_entries _ hrt
  refine ⟨.parsed (.arr ([(⟨m1, noteOf n1, t1⟩ : MoodEntry)].map MoodEntry.to_dict)),
    .parsed (.arr ([(⟨m1, noteOf n1, t1⟩ : MoodEntry),
      ⟨m2, noteOf n2, t2⟩].map MoodEntry.to_dict)),
    .parsed (.arr ([(⟨m1, noteOf n1, t1⟩ : MoodEntry), ⟨m2, noteOf n2, t2⟩,
      ⟨m3, noteOf n3, t3⟩].map MoodEntry.to_dict)), ?_, ?_, ?_, hld3⟩
  · unfold mood_input_submit
    rw [hi1]
    rfl
  · unfold mood_input_submit
    rw [hi2, hld1]
    rfl
  · unfold mood_input_submit
    rw [hi3, hld2]
    rfl

/-- Witness for C7: three concrete submissions accumulate in order. -/
theorem append_three_accumulates_witness :
    ∃ f1 f2 f3,
      mood_input_submit .absent "Happy" "" sampleTime .success = .ok (true, f1, []) ∧
      mood_input_submit f1 "Sad" "rough day" sampleTime2 .success = .ok (true, f2, []) ∧
      mood_input_submit f2 "Excited" " " sampleTime3 .success = .ok (true, f3, []) ∧
      MoodEntriesDataManager.load f3 =
        .ok ([⟨"Happy", noteOf "", sampleTime⟩, ⟨"Sad", noteOf "rough day", sampleTime2⟩,
              ⟨"Excited", noteOf " ", sampleTime3⟩], []) :=
  append_three_accumulates "Happy" "" "Sad" "rough day" "Excited" " "
    sampleTime sampleTime2 sampleTime3
    (by decide) (by decide) (by decide) (by decide) (by decide) (by decide)
